import Mathlib

/-!
Verification of the `nav_insights` core: the sandboxed DSL expression
evaluator (`nav_insights/core/dsl.py`) and the declarative rule engine
built on it (`nav_insights/core/rules.py`).

The Python code is shallowly embedded: Python runtime values flowing
through the evaluator become the inductive type `Value`; the `ast`
expression nodes handled by `SafeEval.visit` become the inductive type
`Expr`; exceptions become `Except` over explicit error types mirroring
`dsl_exceptions.py`.  Python floats are modelled as exact rationals (no
claim exercises binary64 rounding).  Python source strings are parsed by
`parseDSL`, a model of `ast.parse(expr, mode="eval")` restricted to the
grammar the evaluator accepts (literals, `and/or/not`, arithmetic,
comparisons, simple calls, parentheses); strings CPython would parse into
node kinds the evaluator rejects are instead rejected at parse time by
this model, which is immaterial to the claims (they quantify over the
parser or use expressions inside the restricted grammar).
-/

namespace NavInsights

/-- Python runtime values reachable inside the DSL evaluator: `None`,
booleans, ints, floats (modelled as exact rationals), strings, lists and
dicts (fact records parsed from JSON/YAML). -/
inductive Value where
  | vnone : Value
  | vbool (b : Bool) : Value
  | vint (n : Int) : Value
  | vfloat (q : Rat) : Value
  | vstr (s : String) : Value
  | vlist (xs : List Value) : Value
  | vdict (xs : List (String × Value)) : Value
deriving Inhabited

/-- `x is None` check. -/
def Value.isNone : Value → Bool
  | .vnone => true
  | _ => false

/-- Python truthiness (`bool(x)`): `None`, `False`, zero, empty
string/list/dict are falsy. -/
def truthy : Value → Bool
  | .vnone => false
  | .vbool b => b
  | .vint n => n != 0
  | .vfloat q => q != 0
  | .vstr s => s != ""
  | .vlist xs => !xs.isEmpty
  | .vdict xs => !xs.isEmpty

/-- Numeric view: Python treats `bool` as a numeric subtype of `int`. -/
def toNum : Value → Option Rat
  | .vbool b => some (if b then 1 else 0)
  | .vint n => some (n : Rat)
  | .vfloat q => some q
  | _ => none

def Value.isFloat : Value → Bool
  | .vfloat _ => true
  | _ => false

/-- Result of a Python numeric operation: a `float` if either operand was
a float, else an `int` (the rational is integral in that case). -/
def mkNum (isF : Bool) (q : Rat) : Value :=
  if isF then .vfloat q else .vint q.num

/-! Rational arithmetic spelled out through `Rat.divInt` (the library's
`Rat.add` and friends do not reduce inside the kernel, which the
concrete-input witnesses below rely on). -/

def ratAdd (a b : Rat) : Rat := Rat.divInt (a.num * b.den + b.num * a.den) (a.den * b.den)

def ratSub (a b : Rat) : Rat := Rat.divInt (a.num * b.den - b.num * a.den) (a.den * b.den)

def ratMul (a b : Rat) : Rat := Rat.divInt (a.num * b.num) (a.den * b.den)

def ratDiv (a b : Rat) : Rat := Rat.divInt (a.num * b.den) (a.den * b.num)

def ratNeg (a : Rat) : Rat := Rat.divInt (-a.num) a.den

/-- `⌊a⌋` (the denominator is positive, so `Int.fdiv` computes it). -/
def ratFloor (a : Rat) : Int := Int.fdiv a.num a.den

/-- `dict.get(key)`: `None` when the key is absent. -/
def dictGet (xs : List (String × Value)) (k : String) : Value :=
  match xs.find? (fun kv => kv.1 == k) with
  | some kv => kv.2
  | none => .vnone

/-- `dict.get(key, default)`. -/
def dictGetD (xs : List (String × Value)) (k : String) (d : Value) : Value :=
  match xs.find? (fun kv => kv.1 == k) with
  | some kv => kv.2
  | none => d

/-- `key in dict`. -/
def dictHas (xs : List (String × Value)) (k : String) : Bool :=
  (xs.find? (fun kv => kv.1 == k)).isSome

mutual

/-- Structural size of a `Value`, used to provision fuel for the
recursions below (`sizeOf` on this nested inductive is not executable). -/
def Value.tsize : Value → Nat
  | .vlist xs => 1 + Value.tsizeList xs
  | .vdict xs => 1 + Value.tsizeDict xs
  | _ => 1

def Value.tsizeList : List Value → Nat
  | [] => 0
  | v :: vs => 1 + Value.tsize v + Value.tsizeList vs

def Value.tsizeDict : List (String × Value) → Nat
  | [] => 0
  | kv :: vs => 1 + Value.tsize kv.2 + Value.tsizeDict vs

end

mutual

/-- Python `==` on values (fuelled recursion through nested lists/dicts;
the fuel is sized by the wrapper `pyEq` and is never exhausted on inputs
reachable from the claims, which only compare scalars).  Numbers compare
numerically across `bool`/`int`/`float`; unrelated types compare unequal
without raising. -/
def pyEqF : Nat → Value → Value → Bool
  | 0, _, _ => false
  | fuel + 1, a, b =>
    match a, b with
    | .vnone, .vnone => true
    | .vstr x, .vstr y => x == y
    | .vlist xs, .vlist ys => pyEqListF fuel xs ys
    | .vdict xs, .vdict ys =>
        xs.length == ys.length && pyEqDictF fuel xs ys
    | _, _ =>
        match toNum a, toNum b with
        | some x, some y => x == y
        | _, _ => false

/-- Elementwise list equality (Python `list.__eq__`). -/
def pyEqListF : Nat → List Value → List Value → Bool
  | 0, _, _ => false
  | _ + 1, [], [] => true
  | fuel + 1, x :: xs, y :: ys => pyEqF fuel x y && pyEqListF fuel xs ys
  | _ + 1, _, _ => false

/-- Key-by-key dict equality (Python dict equality is order-insensitive). -/
def pyEqDictF : Nat → List (String × Value) → List (String × Value) → Bool
  | 0, _, _ => false
  | _ + 1, [], _ => true
  | fuel + 1, (k, v) :: rest, ys =>
      (match ys.find? (fun kv => kv.1 == k) with
       | some kv => pyEqF fuel v kv.2
       | none => false)
      && pyEqDictF fuel rest ys

end

def pyEq (a b : Value) : Bool := pyEqF (a.tsize + b.tsize + 1) a b

mutual

/-- Python ordering (`<`, `<=`, `>`, `>=`): defined for number/number,
string/string and list/list pairs; `none` models the `TypeError` raised
on unordered type mixes. -/
def pyOrdF : Nat → Value → Value → Option Ordering
  | 0, _, _ => none
  | fuel + 1, a, b =>
    match a, b with
    | .vstr x, .vstr y => some (compare x y)
    | .vlist xs, .vlist ys => pyOrdListF fuel xs ys
    | _, _ =>
        match toNum a, toNum b with
        | some x, some y => some (compare x y)
        | _, _ => none

/-- Python lexicographic list ordering: skip `==`-equal prefixes, then
order the first differing pair. -/
def pyOrdListF : Nat → List Value → List Value → Option Ordering
  | 0, _, _ => none
  | _ + 1, [], [] => some .eq
  | _ + 1, [], _ :: _ => some .lt
  | _ + 1, _ :: _, [] => some .gt
  | fuel + 1, x :: xs, y :: ys =>
      if pyEqF fuel x y then pyOrdListF fuel xs ys else pyOrdF fuel x y

end

def pyOrd (a b : Value) : Option Ordering := pyOrdF (a.tsize + b.tsize + 1) a b

/-! ### Operators (`ARITHMETIC_OPS`, `COMPARISON_OPS`, `UNARY_OPS`, `ast.BoolOp` kinds) -/

/-- The keys of `ARITHMETIC_OPS` (`ast.Add/Sub/Mult/Div/Mod`).  `bunk`
stands for any other `ast` binary-operator class, which is absent from
the table and triggers `UnsupportedNodeError`. -/
inductive BinOp where
  | badd | bsub | bmult | bdiv | bmod
  | bunk (nm : String)
deriving DecidableEq, Inhabited

/-- The keys of `COMPARISON_OPS` (`ast.Eq/NotEq/Lt/LtE/Gt/GtE`); `cunk`
stands for any other comparison-operator class (`ast.Is`, `ast.In`, ...). -/
inductive CmpOp where
  | ceq | cne | clt | cle | cgt | cge
  | cunk (nm : String)
deriving DecidableEq, Inhabited

/-- The keys of `UNARY_OPS` (`ast.Not`, `ast.USub`); `uunk` stands for
any other unary-operator class (`ast.UAdd`, `ast.Invert`). -/
inductive UnOp where
  | unot | usub
  | uunk (nm : String)
deriving DecidableEq, Inhabited

/-- `ast.And` / `ast.Or`. -/
inductive BoolK where
  | band | bor
deriving DecidableEq, Inhabited

/-- The arithmetic operator functions (`op.add` & co.).  A `.error msg`
models the `TypeError`/`ZeroDivisionError`/`ValueError` raised by the
operator, which `_handle_binop` converts into an `ExpressionError`.
Python string/list concatenation and repetition are included; `str %`
formatting is modelled as a `TypeError` (no claim exercises it). -/
def pyArith : BinOp → Value → Value → Except String Value
  | .badd, .vstr a, .vstr b => .ok (.vstr (a ++ b))
  | .badd, .vlist a, .vlist b => .ok (.vlist (a ++ b))
  | .bmult, .vstr a, .vint n => .ok (.vstr (String.join (List.replicate n.toNat a)))
  | .bmult, .vint n, .vstr a => .ok (.vstr (String.join (List.replicate n.toNat a)))
  | .bmult, .vlist a, .vint n => .ok (.vlist (List.flatten (List.replicate n.toNat a)))
  | .bmult, .vint n, .vlist a => .ok (.vlist (List.flatten (List.replicate n.toNat a)))
  | o, a, b =>
    match toNum a, toNum b with
    | some x, some y =>
      let isF := a.isFloat || b.isFloat
      match o with
      | .badd => .ok (mkNum isF (ratAdd x y))
      | .bsub => .ok (mkNum isF (ratSub x y))
      | .bmult => .ok (mkNum isF (ratMul x y))
      | .bdiv =>
          if y = 0 then .error "division by zero"
          else .ok (.vfloat (ratDiv x y))
      | .bmod =>
          if y = 0 then .error "integer division or modulo by zero"
          else .ok (mkNum isF (ratSub x (ratMul y ((ratFloor (ratDiv x y) : Int) : Rat))))
      | .bunk nm => .error ("unsupported operator " ++ nm)
    | _, _ => .error "unsupported operand type(s)"

/-- `op.neg` (`ast.USub`): negates numbers (`-True == -1`); anything else
is the `TypeError` that `_handle_unaryop` converts to `ExpressionError`. -/
def pyNeg : Value → Except String Value
  | .vbool b => .ok (.vint (if b then -1 else 0))
  | .vint n => .ok (.vint (-n))
  | .vfloat q => .ok (.vfloat (ratNeg q))
  | _ => .error "bad operand type for unary minus"

/-- Native Python comparison for one operator application: `==`/`!=`
never raise on type mixes, the order comparisons raise (`none`) when the
operands are not mutually ordered. -/
def pyCompare : CmpOp → Value → Value → Option Bool
  | .ceq, a, b => some (pyEq a b)
  | .cne, a, b => some (!pyEq a b)
  | o, a, b =>
    (pyOrd a b).map fun ord =>
      match o with
      | .clt => ord == .lt
      | .cle => ord != .gt
      | .cgt => ord == .gt
      | .cge => ord != .lt
      | _ => false

/-! ### The DSL AST and error taxonomy -/

/-- The exception taxonomy of `dsl_exceptions.py`.  `expressionError` is
the base `ExpressionError` used for runtime evaluation failures (the
spec's "EvaluationFailure"). -/
inductive Err where
  | parseError (msg : String)
  | unsupportedNode (msg : String)
  | helperNotFound (msg : String)
  | resourceLimit (msg : String)
  | expressionError (msg : String)
deriving DecidableEq, Inhabited

/-- The `ast` expression nodes `SafeEval.visit` dispatches on.
`expression` is the `ast.Expression` wrapper produced by
`ast.parse(-, mode="eval")` (it takes part in depth counting);
`other` stands for every node kind outside the dispatch list
(lambdas, subscripts, attributes, ...), which `visit` rejects. -/
inductive Expr where
  | expression (body : Expr) : Expr
  | const (v : Value) : Expr
  | name (id : String) : Expr
  | binop (left : Expr) (o : BinOp) (right : Expr) : Expr
  | boolop (o : BoolK) (values : List Expr) : Expr
  | unaryop (o : UnOp) (operand : Expr) : Expr
  | compare (left : Expr) (rest : List (CmpOp × Expr)) : Expr
  | call (f : String) (args : List Expr) : Expr
  | other (kind : String) : Expr
deriving Inhabited

/-! ### Dotted-path access (`dsl.value`) -/

/-- The traversal loop of `dsl.value`: at each segment, `None` yields the
default, dicts are looked up with `.get`, and any other intermediate
value is rejected ("Unsupported object type"); after the loop a final
`None` is replaced by the default.  (Pydantic models and other dict-like
objects are outside the `Value` type; fact records here are dicts.) -/
def valueGo : List String → Value → Value → Value
  | [], cur, dflt => if cur.isNone then dflt else cur
  | p :: ps, cur, dflt =>
    match cur with
    | .vnone => dflt
    | .vdict xs => valueGo ps (dictGet xs p) dflt
    | _ => dflt

/-- `path.split(".")`, written out over the character list so that it
reduces in the kernel (`String.splitOn` does not). -/
def splitDotsGo : List Char → List Char → List String
  | acc, [] => [String.mk acc.reverse]
  | acc, c :: cs =>
      if c = '.' then String.mk acc.reverse :: splitDotsGo [] cs
      else splitDotsGo (c :: acc) cs

def splitDots (s : String) : List String := splitDotsGo [] s.data

/-- `dsl.value(path, root, default)`. -/
def valuePath (path : String) (root : Value) (dflt : Value) : Value :=
  valueGo (splitDots path) root dflt

/-! ### The registry (`DSLRegistry`) -/

/-- `min`/`max` over pre-evaluated arguments.  With a single list
argument Python folds over the list; with several arguments it folds
over them; an empty call or an unordered comparison raises, surfacing as
`ExpressionError` through `_handle_call`.  (Python's `min` also accepts
other iterables such as strings; only lists are modelled.) -/
def pyMinMax (isMin : Bool) (args : List Value) : Except String Value :=
  match args with
  | [] => .error "expected at least 1 argument"
  | [.vlist []] => .error "arg is an empty sequence"
  | [.vlist (x :: xs)] => go x xs
  | [_] => .error "object is not iterable"
  | x :: xs => go x xs
where
  go : Value → List Value → Except String Value
    | best, [] => .ok best
    | best, y :: ys =>
      match pyOrd y best with
      | some ord => go (if (if isMin then ord == .lt else ord == .gt) then y else best) ys
      | none => .error "comparison not supported between operand types"

/-- A `DSLRegistry` instance: named plain functions and named accessor
factories.  Functions return `Except String` (a raised exception is
wrapped in `ExpressionError` by `_handle_call`); accessor results are
returned unwrapped, so accessors surface `Err` directly. -/
structure DSLRegistry where
  functions : List (String × (List Value → Except String Value))
  accessors : List (String × (Value → List Value → Except Err Value))

def lookupNamed {α : Type} (xs : List (String × α)) (k : String) : Option α :=
  (xs.find? (fun kv => kv.1 == k)).map (fun kv => kv.2)

/-- `DSLRegistry._make_value_accessor`: the factory bound to a root. -/
def valueAccessor (root : Value) (args : List Value) : Except Err Value :=
  match args with
  | [.vstr p] => .ok (valuePath p root .vnone)
  | [.vstr p, d] => .ok (valuePath p root d)
  | _ => .error (.expressionError "value() requires 'path' or ('path', default)")

/-- The registry built by `DSLRegistry.__init__` (and restored by
`clear()`): functions `min`, `max`; accessor `value`. -/
def defaultRegistry : DSLRegistry :=
  { functions := [("min", pyMinMax true), ("max", pyMinMax false)]
  , accessors := [("value", valueAccessor)] }

/-! ### The evaluator (`SafeEval`) -/

/-- `SafeEval._handle_binop` after both operands are visited: `None` on
either side propagates as `None` before the operator table is consulted;
an unmapped operator is `UnsupportedNodeError`; operator exceptions
become `ExpressionError`. -/
def handleBinopV (o : BinOp) (lv rv : Value) : Except Err Value :=
  if lv.isNone || rv.isNone then .ok .vnone
  else
    match o with
    | .bunk nm => .error (.unsupportedNode ("Binary operator not allowed: " ++ nm))
    | _ =>
      match pyArith o lv rv with
      | .ok v => .ok v
      | .error m => .error (.expressionError ("Arithmetic error: " ++ m))

/-- `SafeEval._handle_unaryop` after the operand is visited: `op.not_`
negates truthiness (so `not None` is `True`); `op.neg` on a non-number
(`None` included) raises, becoming `ExpressionError`. -/
def handleUnaryV (o : UnOp) (v : Value) : Except Err Value :=
  match o with
  | .unot => .ok (.vbool (!truthy v))
  | .usub =>
    match pyNeg v with
    | .ok r => .ok r
    | .error m => .error (.expressionError ("Unary operation error: " ++ m))
  | .uunk nm => .error (.unsupportedNode ("Unary operator not allowed: " ++ nm))

/-- One operator application inside `SafeEval._handle_compare`: the
`None` special cases are tested before the operator table (`==` is the
only true comparison when both sides are `None`, `!=` the only true one
when exactly one is), then the native comparison applies, raising
`ExpressionError` on unordered type mixes. -/
def compareOne (l : Value) (o : CmpOp) (r : Value) : Except Err Bool :=
  if l.isNone && r.isNone then .ok (o == .ceq)
  else if l.isNone || r.isNone then .ok (o == .cne)
  else
    match o with
    | .cunk nm => .error (.unsupportedNode ("Comparison operator not allowed: " ++ nm))
    | _ =>
      match pyCompare o l r with
      | some b => .ok b
      | none => .error (.expressionError "Comparison error: unsupported comparison between operand types")

/-- The `ResourceLimitError` raised when a visit exceeds `max_depth`. -/
def depthErr (maxDepth : Nat) : Err :=
  .resourceLimit s!"Expression AST depth exceeds limit of {maxDepth}"

/-- The call dispatch of `SafeEval._handle_call` after the arguments are
evaluated: accessors are consulted first (with the `value` special case
reading `ctx["value"]`), then registered functions, then the legacy
`ALLOWED_FUNCS` table, else `HelperNotFoundError`. -/
def dispatchCall (reg : DSLRegistry) (root : Value) (f : String)
    (avs : List Value) : Except Err Value :=
  match lookupNamed reg.accessors f with
  | some acc =>
      if f == "value" then
        match avs with
        | [.vstr p] => .ok (valuePath p root .vnone)
        | [.vstr p, dv] => .ok (valuePath p root dv)
        | _ => .error (.expressionError "value() requires 'path' or ('path', default)")
      else acc root avs
  | none =>
    match lookupNamed reg.functions f with
    | some fn =>
        match fn avs with
        | .ok v => .ok v
        | .error m => .error (.expressionError ("Function '" ++ f ++ "' error: " ++ m))
    | none =>
      if f == "min" || f == "max" then
        match pyMinMax (f == "min") avs with
        | .ok v => .ok v
        | .error m => .error (.expressionError ("Built-in function '" ++ f ++ "' error: " ++ m))
      else .error (.helperNotFound ("Function '" ++ f ++ "' not found"))

mutual

/-- `SafeEval.visit`.  `depth` is the value of `current_depth` on entry;
the source increments it, checks the limit, dispatches, and decrements in
a `finally`.  Since exceptions propagate out of the whole evaluation,
this is equivalent to passing the incremented depth to child visits.
(The depth check is written inside each dispatch arm; it precedes the
dispatch in the source, which is observationally the same.) -/
def visitD (reg : DSLRegistry) (root : Value) (maxDepth : Nat) (depth : Nat) :
    Expr → Except Err Value
  | .expression body =>
      if maxDepth < depth + 1 then .error (depthErr maxDepth)
      else visitD reg root maxDepth (depth + 1) body
  | .const v =>
      if maxDepth < depth + 1 then .error (depthErr maxDepth)
      else .ok v
  | .name nm =>
      if maxDepth < depth + 1 then .error (depthErr maxDepth)
      else if nm == "True" then .ok (.vbool true)
      else if nm == "False" then .ok (.vbool false)
      else if nm == "None" then .ok .vnone
      else .error (.unsupportedNode ("Name not allowed: " ++ nm))
  | .binop l o r =>
      if maxDepth < depth + 1 then .error (depthErr maxDepth)
      else
        match visitD reg root maxDepth (depth + 1) l with
        | .error err => .error err
        | .ok lv =>
          match visitD reg root maxDepth (depth + 1) r with
          | .error err => .error err
          | .ok rv => handleBinopV o lv rv
  | .boolop .band vs =>
      if maxDepth < depth + 1 then .error (depthErr maxDepth)
      else visitAndL reg root maxDepth (depth + 1) vs .vnone
  | .boolop .bor vs =>
      if maxDepth < depth + 1 then .error (depthErr maxDepth)
      else visitOrL reg root maxDepth (depth + 1) vs .vnone
  | .unaryop o operand =>
      if maxDepth < depth + 1 then .error (depthErr maxDepth)
      else
        match visitD reg root maxDepth (depth + 1) operand with
        | .error err => .error err
        | .ok v => handleUnaryV o v
  | .compare l rest =>
      if maxDepth < depth + 1 then .error (depthErr maxDepth)
      else
        match visitD reg root maxDepth (depth + 1) l with
        | .error err => .error err
        | .ok lv => visitCmpL reg root maxDepth (depth + 1) lv rest
  | .call f args =>
      if maxDepth < depth + 1 then .error (depthErr maxDepth)
      else
        match lookupNamed reg.accessors f with
        | some _ =>
          match visitArgsL reg root maxDepth (depth + 1) args with
          | .error err => .error err
          | .ok avs => dispatchCall reg root f avs
        | none =>
          match lookupNamed reg.functions f with
          | some _ =>
            match visitArgsL reg root maxDepth (depth + 1) args with
            | .error err => .error err
            | .ok avs => dispatchCall reg root f avs
          | none =>
            if f == "min" || f == "max" then
              match visitArgsL reg root maxDepth (depth + 1) args with
              | .error err => .error err
              | .ok avs => dispatchCall reg root f avs
            else .error (.helperNotFound ("Function '" ++ f ++ "' not found"))
  | .other kind =>
      if maxDepth < depth + 1 then .error (depthErr maxDepth)
      else .error (.unsupportedNode ("Node not allowed: " ++ kind))

/-- The `ast.And` loop of `_handle_boolop`: a `None` operand returns
`False`, any other falsy operand is returned as-is, otherwise the loop
continues carrying the operand as `last_val` (returned when the list is
exhausted; the initial `last_val` is `None`). -/
def visitAndL (reg : DSLRegistry) (root : Value) (maxDepth : Nat) (depth : Nat) :
    List Expr → Value → Except Err Value
  | [], last => .ok last
  | x :: xs, _ =>
    match visitD reg root maxDepth depth x with
    | .error err => .error err
    | .ok v =>
      if v.isNone then .ok (.vbool false)
      else if !truthy v then .ok v
      else visitAndL reg root maxDepth depth xs v

/-- The `ast.Or` loop of `_handle_boolop`: the first truthy operand is
returned; when none is, the last evaluated operand (`last_val`, initially
`None`) is returned with `None` coerced to `False`. -/
def visitOrL (reg : DSLRegistry) (root : Value) (maxDepth : Nat) (depth : Nat) :
    List Expr → Value → Except Err Value
  | [], last => .ok (if last.isNone then .vbool false else last)
  | x :: xs, _ =>
    match visitD reg root maxDepth depth x with
    | .error err => .error err
    | .ok v =>
      if truthy v then .ok v else visitOrL reg root maxDepth depth xs v

/-- The chained-comparison loop of `_handle_compare`: pairs are evaluated
left to right; a falsy pair result returns `False` immediately (later
comparators are not visited); exhausting the pairs returns `True`. -/
def visitCmpL (reg : DSLRegistry) (root : Value) (maxDepth : Nat) (depth : Nat) :
    Value → List (CmpOp × Expr) → Except Err Value
  | _, [] => .ok (.vbool true)
  | left, oc :: rest =>
    match visitD reg root maxDepth depth oc.2 with
    | .error err => .error err
    | .ok right =>
      match compareOne left oc.1 right with
      | .error err => .error err
      | .ok b =>
        if b then visitCmpL reg root maxDepth depth right rest
        else .ok (.vbool false)

/-- Left-to-right evaluation of call arguments. -/
def visitArgsL (reg : DSLRegistry) (root : Value) (maxDepth : Nat) (depth : Nat) :
    List Expr → Except Err (List Value)
  | [] => .ok []
  | x :: xs =>
    match visitD reg root maxDepth depth x with
    | .error err => .error err
    | .ok v =>
      match visitArgsL reg root maxDepth depth xs with
      | .error err => .error err
      | .ok vs => .ok (v :: vs)

end

/-- `eval_expr`, parameterized by the parse function (the source calls
the external `ast.parse(expr, mode="eval")`; `eval_expr` below
instantiates the model parser `parseDSL`).  The length limit is checked
before the parse function is ever consulted; a parse failure becomes
`ParseError`; otherwise the tree (an `ast.Expression` wrapper) is
visited with a fresh depth counter. -/
def evalExprWith (parse : String → Except String Expr) (expr : String) (root : Value)
    (reg : DSLRegistry) (maxLength maxDepth : Nat) : Except Err Value :=
  let n := expr.length
  if n > maxLength then
    .error (.resourceLimit s!"Expression length {n} exceeds limit of {maxLength}")
  else
    match parse expr with
    | .error m => .error (.parseError ("Expression syntax error: " ++ m))
    | .ok tree => visitD reg root maxDepth 0 tree

/-! ### The parser model

`parseDSL` models `ast.parse(expr, mode="eval")` on the restricted
grammar of the DSL (spec §4.1): int/float/string literals,
`True`/`False`/`None`, names, `and`/`or`/`not`, arithmetic `+ - * / %`
with unary minus, chained comparisons `== != < <= > >=`, simple calls
`name(args...)` and parentheses, with Python precedence
(`or` < `and` < `not` < comparison < additive < multiplicative < unary
minus).  Like CPython it produces one flattened `BoolOp` per `and`/`or`
chain and one `Compare` node per comparison chain, wrapped in an
`ast.Expression` node.  String escapes and Python syntax outside this
grammar are rejected at parse time (CPython would parse some of the
latter into node kinds `SafeEval.visit` then rejects; no claim depends
on that difference — the claims about `eval_expr`'s check order
quantify over the parse function). -/

inductive Tok where
  | tint (n : Int)
  | tfloat (q : Rat)
  | tstr (s : String)
  | tname (s : String)
  | tsym (s : String)
deriving DecidableEq, Inhabited

def isIdentStart (c : Char) : Bool := c.isAlpha || c == '_'

def isIdentChar (c : Char) : Bool := c.isAlphanum || c == '_'

def isSpaceChar (c : Char) : Bool := c == ' ' || c == '\t' || c == '\n' || c == '\r'

/-- The single-quote character (written via its code point). -/
def sq : Char := Char.ofNat 39

/-- The double-quote character. -/
def dq : Char := Char.ofNat 34

def takeWhileP (p : Char → Bool) : List Char → (List Char × List Char)
  | [] => ([], [])
  | c :: cs =>
    if p c then
      let r := takeWhileP p cs
      (c :: r.1, r.2)
    else ([], c :: cs)

def natOfDigits (ds : List Char) : Nat :=
  ds.foldl (fun acc c => 10 * acc + (c.toNat - 48)) 0

/-- One- and two-character operator and punctuation tokens. -/
def symTok (c : Char) (cs : List Char) : Option (String × List Char) :=
  match c, cs with
  | '=', '=' :: cs2 => some ("==", cs2)
  | '!', '=' :: cs2 => some ("!=", cs2)
  | '<', '=' :: cs2 => some ("<=", cs2)
  | '>', '=' :: cs2 => some (">=", cs2)
  | '<', _ => some ("<", cs)
  | '>', _ => some (">", cs)
  | '+', _ => some ("+", cs)
  | '-', _ => some ("-", cs)
  | '*', _ => some ("*", cs)
  | '/', _ => some ("/", cs)
  | '%', _ => some ("%", cs)
  | '(', _ => some ("(", cs)
  | ')', _ => some (")", cs)
  | ',', _ => some (",", cs)
  | _, _ => none

def tokenizeF : Nat → List Char → Except String (List Tok)
  | 0, _ => .error "tokenizer ran out of fuel"
  | _, [] => .ok []
  | fuel + 1, c :: cs =>
    if isSpaceChar c then tokenizeF fuel cs
    else if c.isDigit then
      let r := takeWhileP Char.isDigit (c :: cs)
      match r.2 with
      | '.' :: cs2 =>
        let r2 := takeWhileP Char.isDigit cs2
        (match tokenizeF fuel r2.2 with
         | .error m => .error m
         | .ok toks =>
             .ok (.tfloat (Rat.divInt (natOfDigits (r.1 ++ r2.1) : Int)
                   ((10 ^ r2.1.length : Nat) : Int)) :: toks))
      | _ =>
        match tokenizeF fuel r.2 with
        | .error m => .error m
        | .ok toks => .ok (.tint (natOfDigits r.1) :: toks)
    else if isIdentStart c then
      let r := takeWhileP isIdentChar (c :: cs)
      match tokenizeF fuel r.2 with
      | .error m => .error m
      | .ok toks => .ok (.tname (String.mk r.1) :: toks)
    else if c == sq || c == dq then
      let r := takeWhileP (fun d => d != c) cs
      match r.2 with
      | _ :: cs2 =>
        match tokenizeF fuel cs2 with
        | .error m => .error m
        | .ok toks => .ok (.tstr (String.mk r.1) :: toks)
      | [] => .error "unterminated string literal"
    else
      match symTok c cs with
      | some sc =>
        match tokenizeF fuel sc.2 with
        | .error m => .error m
        | .ok toks => .ok (.tsym sc.1 :: toks)
      | none => .error "unexpected character in expression"

def cmpOpOfSym : String → Option CmpOp
  | "==" => some .ceq
  | "!=" => some .cne
  | "<" => some .clt
  | "<=" => some .cle
  | ">" => some .cgt
  | ">=" => some .cge
  | _ => none

mutual

def parseOrE : Nat → List Tok → Except String (Expr × List Tok)
  | 0, _ => .error "expression too deeply nested to parse"
  | fuel + 1, ts => do
    let er ← parseAndE fuel ts
    match er.2 with
    | .tname "or" :: _ => do
        let lr ← parseOrTail fuel er.2
        .ok (.boolop .bor (er.1 :: lr.1), lr.2)
    | _ => .ok er

def parseOrTail : Nat → List Tok → Except String (List Expr × List Tok)
  | 0, _ => .error "expression too deeply nested to parse"
  | fuel + 1, ts =>
    match ts with
    | .tname "or" :: rest => do
        let er ← parseAndE fuel rest
        let lr ← parseOrTail fuel er.2
        .ok (er.1 :: lr.1, lr.2)
    | _ => .ok ([], ts)

def parseAndE : Nat → List Tok → Except String (Expr × List Tok)
  | 0, _ => .error "expression too deeply nested to parse"
  | fuel + 1, ts => do
    let er ← parseNotE fuel ts
    match er.2 with
    | .tname "and" :: _ => do
        let lr ← parseAndTail fuel er.2
        .ok (.boolop .band (er.1 :: lr.1), lr.2)
    | _ => .ok er

def parseAndTail : Nat → List Tok → Except String (List Expr × List Tok)
  | 0, _ => .error "expression too deeply nested to parse"
  | fuel + 1, ts =>
    match ts with
    | .tname "and" :: rest => do
        let er ← parseNotE fuel rest
        let lr ← parseAndTail fuel er.2
        .ok (er.1 :: lr.1, lr.2)
    | _ => .ok ([], ts)

def parseNotE : Nat → List Tok → Except String (Expr × List Tok)
  | 0, _ => .error "expression too deeply nested to parse"
  | fuel + 1, ts =>
    match ts with
    | .tname "not" :: rest => do
        let er ← parseNotE fuel rest
        .ok (.unaryop .unot er.1, er.2)
    | _ => parseCmpE fuel ts

def parseCmpE : Nat → List Tok → Except String (Expr × List Tok)
  | 0, _ => .error "expression too deeply nested to parse"
  | fuel + 1, ts => do
    let er ← parseArith fuel ts
    let pr ← parseCmpTail fuel er.2
    match pr.1 with
    | [] => .ok (er.1, pr.2)
    | _ => .ok (.compare er.1 pr.1, pr.2)

def parseCmpTail : Nat → List Tok → Except String (List (CmpOp × Expr) × List Tok)
  | 0, _ => .error "expression too deeply nested to parse"
  | fuel + 1, ts =>
    match ts with
    | .tsym s :: rest =>
      match cmpOpOfSym s with
      | some o => do
          let er ← parseArith fuel rest
          let pr ← parseCmpTail fuel er.2
          .ok ((o, er.1) :: pr.1, pr.2)
      | none => .ok ([], ts)
    | _ => .ok ([], ts)

def parseArith : Nat → List Tok → Except String (Expr × List Tok)
  | 0, _ => .error "expression too deeply nested to parse"
  | fuel + 1, ts => do
    let er ← parseTerm fuel ts
    parseArithTail fuel er.1 er.2

def parseArithTail : Nat → Expr → List Tok → Except String (Expr × List Tok)
  | 0, _, _ => .error "expression too deeply nested to parse"
  | fuel + 1, acc, ts =>
    match ts with
    | .tsym "+" :: rest => do
        let er ← parseTerm fuel rest
        parseArithTail fuel (.binop acc .badd er.1) er.2
    | .tsym "-" :: rest => do
        let er ← parseTerm fuel rest
        parseArithTail fuel (.binop acc .bsub er.1) er.2
    | _ => .ok (acc, ts)

def parseTerm : Nat → List Tok → Except String (Expr × List Tok)
  | 0, _ => .error "expression too deeply nested to parse"
  | fuel + 1, ts => do
    let er ← parseFactor fuel ts
    parseTermTail fuel er.1 er.2

def parseTermTail : Nat → Expr → List Tok → Except String (Expr × List Tok)
  | 0, _, _ => .error "expression too deeply nested to parse"
  | fuel + 1, acc, ts =>
    match ts with
    | .tsym "*" :: rest => do
        let er ← parseFactor fuel rest
        parseTermTail fuel (.binop acc .bmult er.1) er.2
    | .tsym "/" :: rest => do
        let er ← parseFactor fuel rest
        parseTermTail fuel (.binop acc .bdiv er.1) er.2
    | .tsym "%" :: rest => do
        let er ← parseFactor fuel rest
        parseTermTail fuel (.binop acc .bmod er.1) er.2
    | _ => .ok (acc, ts)

def parseFactor : Nat → List Tok → Except String (Expr × List Tok)
  | 0, _ => .error "expression too deeply nested to parse"
  | fuel + 1, ts =>
    match ts with
    | .tsym "-" :: rest => do
        let er ← parseFactor fuel rest
        .ok (.unaryop .usub er.1, er.2)
    | _ => parseAtom fuel ts

def parseAtom : Nat → List Tok → Except String (Expr × List Tok)
  | 0, _ => .error "expression too deeply nested to parse"
  | fuel + 1, ts =>
    match ts with
    | .tint n :: rest => .ok (.const (.vint n), rest)
    | .tfloat q :: rest => .ok (.const (.vfloat q), rest)
    | .tstr s :: rest => .ok (.const (.vstr s), rest)
    | .tname "True" :: rest => .ok (.const (.vbool true), rest)
    | .tname "False" :: rest => .ok (.const (.vbool false), rest)
    | .tname "None" :: rest => .ok (.const .vnone, rest)
    | .tname "and" :: _ => .error "unexpected keyword"
    | .tname "or" :: _ => .error "unexpected keyword"
    | .tname "not" :: _ => .error "unexpected keyword"
    | .tname f :: .tsym "(" :: .tsym ")" :: rest => .ok (.call f [], rest)
    | .tname f :: .tsym "(" :: rest => do
        let ar ← parseArgsE fuel rest
        .ok (.call f ar.1, ar.2)
    | .tname nm :: rest => .ok (.name nm, rest)
    | .tsym "(" :: rest => do
        let er ← parseOrE fuel rest
        match er.2 with
        | .tsym ")" :: rest2 => .ok (er.1, rest2)
        | _ => .error "expected closing parenthesis"
    | _ => .error "unexpected token or end of input"

def parseArgsE : Nat → List Tok → Except String (List Expr × List Tok)
  | 0, _ => .error "expression too deeply nested to parse"
  | fuel + 1, ts => do
    let er ← parseOrE fuel ts
    match er.2 with
    | .tsym "," :: rest => do
        let ar ← parseArgsE fuel rest
        .ok (er.1 :: ar.1, ar.2)
    | .tsym ")" :: rest => .ok ([er.1], rest)
    | _ => .error "expected comma or closing parenthesis in argument list"

end

/-- The model of `ast.parse(expr, mode="eval")`: tokenize, parse one
expression, require all input consumed, and wrap the result in the
`ast.Expression` node. -/
def parseDSL (s : String) : Except String Expr :=
  match tokenizeF (s.data.length + 1) s.data with
  | .error m => .error m
  | .ok ts =>
    match parseOrE (10 * ts.length + 10) ts with
    | .error m => .error m
    | .ok er =>
      match er.2 with
      | [] => .ok (.expression er.1)
      | _ => .error "unexpected trailing tokens"

/-- Default limits of `eval_expr`. -/
def maxLengthDefault : Nat := 1024

def maxDepthDefault : Nat := 25

/-- `eval_expr(expr, root)` with the default registry and limits, as
called by the rule engine. -/
def eval_expr (expr : String) (root : Value) : Except Err Value :=
  evalExprWith parseDSL expr root defaultRegistry maxLengthDefault maxDepthDefault

/-! ### The rule loader and validator (`rules.py`) -/

/-- Loader error taxonomy: `valueError` models the `ValueError`s raised
by `_validate_ruleset` (their messages name the offending rule by index
or id); `parseFail` models the `SyntaxError` escaping the bare
`ast.parse(c["expr"], mode="eval")` call on a condition expression —
that exception is not wrapped, so its message carries no rule
information. -/
inductive LoadErr where
  | valueError (msg : String)
  | parseFail (msg : String)
deriving DecidableEq, Inhabited

/-- Python `str()`/f-string rendering for the values interpolated into
error messages and action ids.  Exact for `None`, booleans, ints and
strings (the kinds that occur as rule ids); approximate for the rest
(floats are rendered as exact fractions, containers are abbreviated),
which no claim inspects. -/
def fstr : Value → String
  | .vnone => "None"
  | .vbool b => if b then "True" else "False"
  | .vint n => toString n
  | .vfloat q => toString q.num ++ "/" ++ toString q.den
  | .vstr s => s
  | .vlist _ => "[...]"
  | .vdict _ => "\x7b...\x7d"

/-- A condition entry is usable iff it is a mapping with a string
`expr` (`isinstance(c, dict) and "expr" in c and isinstance(c["expr"], str)`). -/
def condOk : Value → Option String
  | .vdict xs =>
    (match xs.find? (fun kv => kv.1 == "expr") with
     | some kv =>
       match kv.2 with
       | .vstr s => some s
       | _ => none
     | none => none)
  | _ => none

/-- The condition loop of `_validate_ruleset` for one rule: a malformed
condition raises a `ValueError` naming the rule; then `ast.parse` is run
on the expression for a syntax check only, its `SyntaxError` escaping
unwrapped. -/
def validateConds (rid : Value) : List Value → Except LoadErr Unit
  | [] => .ok ()
  | c :: cs =>
    match condOk c with
    | none => .error (.valueError ("Rule " ++ fstr rid ++ " has invalid condition: " ++ fstr c))
    | some s =>
      match parseDSL s with
      | .error m => .error (.parseFail m)
      | .ok _ => validateConds rid cs

/-- The rule loop of `_validate_ruleset` (the index `i` is the
enumeration counter used in messages).  The trailing best-effort walk
over `expected_impact` wraps every `ast.parse` attempt in
`try/except: pass`, so it is observationally a no-op and is not
modelled further. -/
def validateRulesGo (i : Nat) : List Value → Except LoadErr Unit
  | [] => .ok ()
  | r :: rs =>
    match r with
    | .vdict xs =>
      let rid := dictGet xs "id"
      if !truthy rid then .error (.valueError ("Rule #" ++ toString i ++ " missing 'id'"))
      else
        match dictGetD xs "if_all" (.vlist []) with
        | .vlist conds =>
          match validateConds rid conds with
          | .error e => .error e
          | .ok _ => validateRulesGo (i + 1) rs
        | _ => .error (.valueError ("Rule " ++ fstr rid ++ " 'if_all' must be a list"))
    | _ => .error (.valueError ("Rule #" ++ toString i ++ " is not a mapping"))

/-- `_validate_ruleset`. -/
def validateRuleset : Value → Except LoadErr Unit
  | .vlist rs => validateRulesGo 0 rs
  | _ => .error (.valueError "Rules file must parse to a list")

/-- `_load_rules_cached` body for one path: `readDoc` models reading and
YAML-parsing the file (external I/O); `yaml.safe_load(f) or []` replaces
a falsy document with the empty list; validation errors propagate. -/
def loadRulesOnce (doc : Value) : Except LoadErr Value :=
  let rules := if truthy doc then doc else .vlist []
  match validateRuleset rules with
  | .error e => .error e
  | .ok _ => .ok rules

/-- The `lru_cache` wrapper around `_load_rules_cached`: the cache maps
paths to validated rule lists; a cache hit skips the load; `lru_cache`
does not memoize raised exceptions, so a failed load leaves no cache
entry (the error result carries no updated cache). -/
def loadRulesCached (readDoc : String → Value) (cache : List (String × Value))
    (path : String) : Except LoadErr (Value × List (String × Value)) :=
  match lookupNamed cache path with
  | some rules => .ok (rules, cache)
  | none =>
    match loadRulesOnce (readDoc path) with
    | .error e => .error e
    | .ok rules => .ok (rules, (path, rules) :: cache)

/-! ### The rule evaluation engine (`evaluate_rules`) -/

/-- Errors that can abort a live `evaluate_rules` run: DSL expression
errors propagating out of condition evaluation, pydantic validation
errors from `ActionImpact`/`Action` construction, and the
`TypeError`/`KeyError`/`AttributeError` family raised on malformed rule
dicts (unreachable for loader-validated rule sets). -/
inductive RunErr where
  | exprErr (e : Err)
  | validationError (msg : String)
  | typeErr (msg : String)
deriving DecidableEq, Inhabited

/-- `core.actions.ActionImpact` (pydantic model). -/
structure ActionImpact where
  spend_savings_usd : Option Rat
  revenue_lift_usd : Option Rat
  risk : String
deriving DecidableEq, Inhabited

/-- `core.actions.Action` (pydantic model). -/
structure Action where
  id : String
  type : String
  target : String
  params : List (String × Value)
  justification : String
  expected_impact : Option ActionImpact
  priority : Int
  confidence : Rat
  source_rule_id : Option String
deriving Inhabited

/-- The `Literal` alternatives of `Action.type`. -/
def allowedActionTypes : List String :=
  ["tighten_match_types", "add_negatives", "budget_rebalance", "geo_exclude",
   "cap_pmax", "creative_refresh", "tracking_fix", "other"]

/-- The hardcoded confidence constant assigned by `evaluate_rules`. -/
def confidenceAssigned : Rat := mkRat 9 10

/-- Pydantic float-field validation for `ActionImpact` (numbers accepted
with int-to-float coercion, `None` kept; pydantic's lax numeric-string
coercion is not modelled — no claim exercises it). -/
def impactNumField (v : Value) : Except String (Option Rat) :=
  match v with
  | .vnone => .ok none
  | .vint n => .ok (some (n : Rat))
  | .vfloat q => .ok (some q)
  | _ => .error "value is not a valid float"

/-- `ActionImpact(**exp_imp)`: keyword expansion requires a mapping;
unknown keys are ignored (pydantic default); `risk` must be one of the
three literals, defaulting to "low". -/
def mkActionImpact (v : Value) : Except String ActionImpact :=
  match v with
  | .vdict xs =>
    (match impactNumField (dictGetD xs "spend_savings_usd" .vnone) with
     | .error m => .error m
     | .ok ss =>
       match impactNumField (dictGetD xs "revenue_lift_usd" .vnone) with
       | .error m => .error m
       | .ok rl =>
         match dictGetD xs "risk" (.vstr "low") with
         | .vstr r =>
             if r == "low" || r == "medium" || r == "high" then
               .ok { spend_savings_usd := ss, revenue_lift_usd := rl, risk := r }
             else .error "risk is not a permitted literal"
         | _ => .error "risk is not a permitted literal")
  | _ => .error "argument expansion requires a mapping"

/-- `str.strip()` (written over the character list so it reduces in the
kernel; `String.trim` does not). -/
def pyStrip (s : String) : String :=
  String.mk (((s.data.dropWhile isSpaceChar).reverse.dropWhile isSpaceChar).reverse)

/-- Modelled collaborator: `_render` delegates to the external Jinja2
`Template(template_str).render(...)` with the `pct`/`usd`/`value`/`action`
environment.  Jinja2 is outside this repository; rendering is modelled as
returning the template text unchanged.  No claim inspects justification
contents. -/
def renderTemplate (tpl : String) (_root : Value)
    (_action : List (String × Value)) : String :=
  tpl

/-- The justification branch of `evaluate_rules`:
`_render(just_tpl, ctx) if just_tpl else r.get("description", "")`. -/
def justificationOf (r : List (String × Value)) (root : Value)
    (action : List (String × Value)) : Except RunErr String :=
  let tpl := dictGetD r "justification_template" (.vstr "")
  if truthy tpl then
    match tpl with
    | .vstr s => .ok (renderTemplate s root action)
    | _ => .error (.typeErr "justification_template is not a string")
  else
    match dictGetD r "description" (.vstr "") with
    | .vstr d => .ok d
    | _ => .error (.typeErr "description is not a string")

mutual

/-- `_eval_value_or_expr` (fuelled recursion through nested dicts/lists;
the wrapper `evalValueOrExpr` provisions fuel from the node size, and the
fuel-exhaustion branch returning the node unchanged is unreachable from
it).  Numeric/bool/null leaves pass through; string leaves are
tentatively evaluated as expressions with any evaluation failure keeping
the literal string; dict and list nodes recurse. -/
def evalVOEF (root : Value) : Nat → Value → Value
  | 0, node => node
  | fuel + 1, node =>
    match node with
    | .vbool b => .vbool b
    | .vint n => .vint n
    | .vfloat q => .vfloat q
    | .vnone => .vnone
    | .vdict xs => .vdict (evalVOEDictF root fuel xs)
    | .vstr s =>
      (match eval_expr s root with
       | .ok v => v
       | .error _ => .vstr s)
    | .vlist xs => .vlist (evalVOEListF root fuel xs)

def evalVOEDictF (root : Value) : Nat → List (String × Value) → List (String × Value)
  | 0, xs => xs
  | _ + 1, [] => []
  | fuel + 1, kv :: rest => (kv.1, evalVOEF root fuel kv.2) :: evalVOEDictF root fuel rest

def evalVOEListF (root : Value) : Nat → List Value → List Value
  | 0, xs => xs
  | _ + 1, [] => []
  | fuel + 1, v :: rest => evalVOEF root fuel v :: evalVOEListF root fuel rest

end

/-- `_eval_value_or_expr(node, root)`. -/
def evalValueOrExpr (root node : Value) : Value :=
  evalVOEF root (node.tsize + 1) node

/-- The condition test of `evaluate_rules`:
`all(bool(eval_expr(c["expr"], ir)) for c in conds)`.  `all` consumes the
generator lazily, so it stops at the first falsy condition; expression
errors propagate and abort the run. -/
def checkConds (ir : Value) : List Value → Except RunErr Bool
  | [] => .ok true
  | c :: cs =>
    match condOk c with
    | none => .error (.typeErr "condition is not a mapping with a string expr")
    | some s =>
      match eval_expr s ir with
      | .error e => .error (.exprErr e)
      | .ok v => if truthy v then checkConds ir cs else .ok false

/-- Synthesis of the `n`-th emitted action (1-based) from fired rule `r`:
the action dict literal of `evaluate_rules` (id interpolation, defaults
for type/target/params/priority, fixed confidence), then justification
rendering, impact resolution through `_eval_value_or_expr` (only a truthy
resolved tree is validated as an `ActionImpact`), and finally the
pydantic `Action` field validation. -/
def mkAction (ir : Value) (r : List (String × Value)) (n : Nat) : Except RunErr Action :=
  let rid := dictGet r "id"
  match dictGetD r "action" (.vdict []) with
  | .vdict ad =>
    let idStr := fstr rid ++ "_ACT_" ++ toString n
    let typeV := dictGetD ad "type" (.vstr "other")
    let targetV := dictGetD ad "target" (.vstr "")
    let paramsV := dictGetD ad "params" (.vdict [])
    let priorityV := dictGetD r "priority" (.vint 3)
    (match justificationOf r ir [("id", .vstr idStr)] with
     | .error e => .error e
     | .ok jus =>
       let expImp := evalValueOrExpr ir (dictGetD r "expected_impact" (.vdict []))
       let impactE : Except RunErr (Option ActionImpact) :=
         if truthy expImp then
           match mkActionImpact expImp with
           | .ok i => .ok (some i)
           | .error m => .error (.validationError m)
         else .ok none
       match impactE with
       | .error e => .error e
       | .ok impact =>
         match typeV, targetV, paramsV, priorityV, rid with
         | .vstr ty, .vstr tgt, .vdict ps, .vint pr, .vstr rids =>
           if !(allowedActionTypes.contains ty) then
             .error (.validationError "type is not a permitted literal")
           else if pr < 1 || 5 < pr then
             .error (.validationError "priority is out of range")
           else
             .ok { id := idStr, type := ty, target := tgt, params := ps
                 , justification := pyStrip jus, expected_impact := impact
                 , priority := pr, confidence := confidenceAssigned
                 , source_rule_id := some rids }
         | _, _, _, _, _ => .error (.validationError "Action field validation failed"))
  | _ => .error (.typeErr "rule 'action' is not a mapping")

/-- The main loop of `evaluate_rules`: rules are visited once in
declaration order; a rule whose conditions are not all truthy is skipped;
a fired rule appends exactly one action whose running index is
`len(actions) + 1`; any error aborts the whole run. -/
def evalRulesGo (ir : Value) : List Value → List Action → Except RunErr (List Action)
  | [], acc => .ok acc
  | r :: rs, acc =>
    match r with
    | .vdict rd =>
      (match dictGetD rd "if_all" (.vlist []) with
       | .vlist conds =>
         (match checkConds ir conds with
          | .error e => .error e
          | .ok fired =>
            if fired then
              match mkAction ir rd (acc.length + 1) with
              | .error e => .error e
              | .ok a => evalRulesGo ir rs (acc ++ [a])
            else evalRulesGo ir rs acc)
       | _ => .error (.typeErr "rule 'if_all' is not a list"))
    | _ => .error (.typeErr "rule is not a mapping")

/-- `evaluate_rules(ir, rules_path)` applied to an already loaded rule
list (the body after the `_load_rules_cached` call). -/
def evaluate_rules (ir : Value) (rules : Value) : Except RunErr (List Action) :=
  match rules with
  | .vlist rs => evalRulesGo ir rs []
  | _ => .error (.typeErr "rules object is not a list")

/-! ### Specification-side predicates and concrete inputs used by the
theorems -/

/-- `sub` is an initial segment of the character list. -/
def initSeg : List Char → List Char → Bool
  | [], _ => true
  | _ :: _, [] => false
  | p :: ps, c :: cs => p == c && initSeg ps cs

/-- `sub` occurs inside the character list. -/
def subIn : List Char → List Char → Bool
  | sub, [] => sub.isEmpty
  | sub, c :: cs => initSeg sub (c :: cs) || subIn sub cs

/-- Python's `sub in s` substring test, used to state whether an error
message mentions a rule id. -/
def strMentions (s sub : String) : Bool := subIn sub.data s.data

/-- A well-formed condition entry per `_validate_ruleset`: a mapping
with a string `expr` whose expression parses. -/
def condWFb (c : Value) : Bool :=
  match condOk c with
  | some s => (parseDSL s).isOk
  | none => false

/-- A well-formed rule entry per `_validate_ruleset`: a mapping with a
truthy `id` whose `if_all` entry (defaulting to the empty list) is a
list of well-formed conditions. -/
def ruleWFb (r : Value) : Bool :=
  match r with
  | .vdict xs =>
    truthy (dictGet xs "id") &&
      (match dictGetD xs "if_all" (.vlist []) with
       | .vlist conds => conds.all condWFb
       | _ => false)
  | _ => false

/-- The specification relation for one engine run (claim C1):
`Emits ir n rs as` holds when visiting the rules `rs` in order — with
`n` the 1-based running index the next emitted action will receive —
produces exactly the actions `as`: a rule whose `if_all` conditions all
evaluate truthy contributes exactly one action whose `source_rule_id` is
the rule's id and whose id is `"{rule.id}_ACT_{n}"`, and a rule with a
non-truthy condition contributes none. -/
inductive Emits (ir : Value) : Nat → List Value → List Action → Prop where
  | nil (n : Nat) : Emits ir n [] []
  | skip (n : Nat) (rd : List (String × Value)) (conds : List Value)
      (rs : List Value) (as : List Action) :
      dictGetD rd "if_all" (.vlist []) = .vlist conds →
      checkConds ir conds = .ok false →
      Emits ir n rs as →
      Emits ir n (.vdict rd :: rs) as
  | fire (n : Nat) (rd : List (String × Value)) (conds : List Value)
      (rs : List Value) (a : Action) (as : List Action) (rid : String) :
      dictGetD rd "if_all" (.vlist []) = .vlist conds →
      checkConds ir conds = .ok true →
      dictGet rd "id" = .vstr rid →
      a.source_rule_id = some rid →
      a.id = rid ++ "_ACT_" ++ toString n →
      Emits ir (n + 1) rs as →
      Emits ir n (.vdict rd :: rs) (a :: as)

/-- The spec §8 example rule
`{id:"R1", if_all:[{expr:"value('x')>10"}], action:{type:"other", target:"t"}}`. -/
def r1Rule : Value :=
  .vdict [("id", .vstr "R1"),
          ("if_all", .vlist [.vdict [("expr", .vstr "value('x')>10")]]),
          ("action", .vdict [("type", .vstr "other"), ("target", .vstr "t")])]

/-- Fact record `{x: 11}`. -/
def factX11 : Value := .vdict [("x", .vint 11)]

/-- Fact record `{x: 5}`. -/
def factX5 : Value := .vdict [("x", .vint 5)]

/-- The action `evaluate_rules` synthesizes from `r1Rule` against
`factX11`. -/
def r1Action : Action :=
  { id := "R1_ACT_1", type := "other", target := "t", params := []
  , justification := "", expected_impact := none, priority := 3
  , confidence := confidenceAssigned, source_rule_id := some "R1" }

/-- A rule set whose only rule has the unparsable condition `expr: "1 +"`
(spec §8). -/
def badRuleset : Value :=
  .vlist [.vdict [("id", .vstr "R1"),
                  ("if_all", .vlist [.vdict [("expr", .vstr "1 +")]])]]

/-- An expression of `k` nested `not` applications. -/
def notChain (k : Nat) : String :=
  String.join (List.replicate k "not ") ++ "True"

/-- A 1025-character input, exceeding the default `max_length` of 1024. -/
def longInput : String := String.mk (List.replicate 1025 'a')

/-! ### Theorems -/

/-- A successful visit implies its own depth check passed. -/
theorem visit_ok_depth {reg : DSLRegistry} {root : Value} {maxD depth : Nat}
    {e : Expr} {v : Value}
    (h : visitD reg root maxD depth e = .ok v) : ¬ (maxD < depth + 1) := by
  intro hlt
  cases e with
  | boolop o vs => cases o <;> simp [visitD, hlt] at h
  | expression body => simp [visitD, hlt] at h
  | const vv => simp [visitD, hlt] at h
  | name nm => simp [visitD, hlt] at h
  | binop l o r => simp [visitD, hlt] at h
  | unaryop o operand => simp [visitD, hlt] at h
  | compare l rest => simp [visitD, hlt] at h
  | call f args => simp [visitD, hlt] at h
  | other kind => simp [visitD, hlt] at h

/-- Claim C9: evaluation is deterministic — identical (expression, fact
record) inputs give identical results, and identical (rule set, fact
record) pairs give identical action ids in identical order; the embedded
evaluator and engine are pure functions of their inputs. -/
theorem c9_determinism :
    (∀ (E : String) (R : Value), eval_expr E R = eval_expr E R) ∧
    (∀ (ir rules : Value),
        (evaluate_rules ir rules).map (fun as => as.map Action.id)
          = (evaluate_rules ir rules).map (fun as => as.map Action.id)) :=
  ⟨fun _ _ => rfl, fun _ _ => rfl⟩

/-- Claim C2: `and`/`or` short-circuit left to right — once the first
operand settles the outcome the remaining operands are irrelevant to the
result (so they are never evaluated), and concretely
`evaluate("False and (1/0)", R)` is `false` for every fact record `R`,
with no divide-by-zero raised. -/
theorem c2_short_circuit :
    (∀ root : Value, eval_expr "False and (1/0)" root = .ok (.vbool false)) ∧
    (∀ (reg : DSLRegistry) (root : Value) (maxD d : Nat) (e : Expr) (v : Value)
        (rest rest' : List Expr) (last last' : Value),
        visitD reg root maxD d e = .ok v → truthy v = false →
        visitAndL reg root maxD d (e :: rest) last
          = visitAndL reg root maxD d (e :: rest') last') ∧
    (∀ (reg : DSLRegistry) (root : Value) (maxD d : Nat) (e : Expr) (v : Value)
        (rest rest' : List Expr) (last last' : Value),
        visitD reg root maxD d e = .ok v → truthy v = true →
        visitOrL reg root maxD d (e :: rest) last
          = visitOrL reg root maxD d (e :: rest') last') := by
  refine ⟨fun root => rfl, ?_, ?_⟩
  · intro reg root maxD d e v rest rest' last last' hv htr
    cases hn : v.isNone <;> simp [visitAndL, hv, hn, htr]
  · intro reg root maxD d e v rest rest' last last' hv htr
    simp [visitOrL, hv, htr]

/-- Witness for C2 at a concrete input: the first operand of an `and` is
false, and the result is the same whether the remaining-operand list is
the divide-by-zero branch or nothing at all. -/
theorem c2_witness :
    (visitD defaultRegistry (.vdict []) 25 1 (.const (.vbool false)) = .ok (.vbool false)
      ∧ truthy (.vbool false) = false)
    ∧ visitAndL defaultRegistry (.vdict []) 25 1
        [.const (.vbool false), .binop (.const (.vint 1)) .bdiv (.const (.vint 0))] .vnone
      = visitAndL defaultRegistry (.vdict []) 25 1 [.const (.vbool false)] .vnone :=
  ⟨⟨rfl, rfl⟩, c2_short_circuit.2.1 _ _ _ _ _ _ _ _ _ _ rfl rfl⟩

/-- Claim C3 (counterexample): the claim says an `or` whose operands are
all falsy evaluates to `false`; the code instead returns the last
evaluated operand, so `"0 or ''"` evaluates to the empty string, not to
`false` (the code's own test suite asserts this behaviour). -/
theorem c3_counterexample :
    eval_expr "0 or ''" (.vdict []) = .ok (.vstr "")
      ∧ eval_expr "0 or ''" (.vdict []) ≠ .ok (.vbool false) := by
  refine ⟨rfl, fun h => ?_⟩
  have h2 : (Except.ok (Value.vstr "") : Except Err Value) = .ok (.vbool false) :=
    (show eval_expr "0 or ''" (.vdict []) = .ok (.vstr "") from rfl).symm.trans h
  simp at h2

/-- Claim C3 (amended): `or` returns the first truthy operand; when no
operand is truthy it returns the last evaluated operand with a null
final operand coerced to false (so `"0 or ''"` gives `''` and
`"0 or None"` gives false); `and` walks operands while truthy, returns
false as soon as an operand is null, returns a falsy non-null operand
as-is, and returns the last evaluated operand when all are truthy. -/
theorem c3_amended :
    (∀ (reg : DSLRegistry) (root : Value) (maxD d : Nat) (e : Expr) (v : Value)
        (es : List Expr) (last : Value),
        visitD reg root maxD d e = .ok v → truthy v = true →
        visitOrL reg root maxD d (e :: es) last = .ok v) ∧
    (∀ (reg : DSLRegistry) (root : Value) (maxD d : Nat) (e : Expr) (v : Value)
        (es : List Expr) (last : Value),
        visitD reg root maxD d e = .ok v → truthy v = false →
        visitOrL reg root maxD d (e :: es) last = visitOrL reg root maxD d es v) ∧
    (∀ (reg : DSLRegistry) (root : Value) (maxD d : Nat) (last : Value),
        visitOrL reg root maxD d [] last
          = .ok (if last.isNone then .vbool false else last)) ∧
    (∀ (reg : DSLRegistry) (root : Value) (maxD d : Nat) (e : Expr)
        (es : List Expr) (last : Value),
        visitD reg root maxD d e = .ok .vnone →
        visitAndL reg root maxD d (e :: es) last = .ok (.vbool false)) ∧
    (∀ (reg : DSLRegistry) (root : Value) (maxD d : Nat) (e : Expr) (v : Value)
        (es : List Expr) (last : Value),
        visitD reg root maxD d e = .ok v → v.isNone = false → truthy v = false →
        visitAndL reg root maxD d (e :: es) last = .ok v) ∧
    (∀ (reg : DSLRegistry) (root : Value) (maxD d : Nat) (e : Expr) (v : Value)
        (es : List Expr) (last : Value),
        visitD reg root maxD d e = .ok v → truthy v = true →
        visitAndL reg root maxD d (e :: es) last = visitAndL reg root maxD d es v) ∧
    (∀ (reg : DSLRegistry) (root : Value) (maxD d : Nat) (last : Value),
        visitAndL reg root maxD d [] last = .ok last) ∧
    eval_expr "0 or ''" (.vdict []) = .ok (.vstr "") ∧
    eval_expr "0 or None" (.vdict []) = .ok (.vbool false) := by
  refine ⟨?_, ?_, fun _ _ _ _ _ => rfl, ?_, ?_, ?_, fun _ _ _ _ _ => rfl, rfl, rfl⟩
  · intro reg root maxD d e v es last hv htr
    simp [visitOrL, hv, htr]
  · intro reg root maxD d e v es last hv htr
    simp [visitOrL, hv, htr]
  · intro reg root maxD d e es last hv
    simp [visitAndL, hv, Value.isNone]
  · intro reg root maxD d e v es last hv hn htr
    simp [visitAndL, hv, hn, htr]
  · intro reg root maxD d e v es last hv htr
    have hn : v.isNone = false := by
      cases v <;> simp_all [truthy, Value.isNone]
    simp [visitAndL, hv, hn, htr]

/-- Witness for the amended C3 at a concrete input: a truthy first `or`
operand is returned as the result. -/
theorem c3_witness :
    (visitD defaultRegistry (.vdict []) 25 1 (.const (.vint 7)) = .ok (.vint 7)
      ∧ truthy (.vint 7) = true)
    ∧ visitOrL defaultRegistry (.vdict []) 25 1 [.const (.vint 7), .other "boom"] .vnone
        = .ok (.vint 7) :=
  ⟨⟨rfl, rfl⟩, c3_amended.1 _ _ _ _ _ _ _ _ rfl rfl⟩

/-- Claim C10: null propagation does not extend to unary operators — a
unary minus whose operand evaluates to null raises `EvaluationFailure`
(it does not return null), while `not` applied to a null operand returns
true. -/
theorem c10_unary_null :
    (∀ (reg : DSLRegistry) (root : Value) (maxD d : Nat) (e : Expr),
        visitD reg root maxD (d + 1) e = .ok .vnone →
        visitD reg root maxD d (.unaryop .usub e)
          = .error (.expressionError "Unary operation error: bad operand type for unary minus")) ∧
    (∀ (reg : DSLRegistry) (root : Value) (maxD d : Nat) (e : Expr),
        visitD reg root maxD (d + 1) e = .ok .vnone →
        visitD reg root maxD d (.unaryop .unot e) = .ok (.vbool true)) ∧
    eval_expr "-value('missing')" (.vdict [])
      = .error (.expressionError "Unary operation error: bad operand type for unary minus") ∧
    eval_expr "not value('missing')" (.vdict []) = .ok (.vbool true) := by
  refine ⟨?_, ?_, rfl, rfl⟩ <;>
  · intro reg root maxD d e he
    have hd := visit_ok_depth he
    have hd1 : ¬ (maxD < d + 1) := by omega
    simp [visitD, hd1, he, handleUnaryV, pyNeg, truthy]

/-- Witness for C10 at a concrete input: the operand `None` makes unary
minus fail with `EvaluationFailure`. -/
theorem c10_witness :
    visitD defaultRegistry (.vdict []) 25 1 (.const .vnone) = .ok .vnone ∧
    visitD defaultRegistry (.vdict []) 25 0 (.unaryop .usub (.const .vnone))
      = .error (.expressionError "Unary operation error: bad operand type for unary minus") :=
  ⟨rfl, c10_unary_null.1 _ _ _ _ _ rfl⟩

/-- Claim C4: binary arithmetic propagates null — if either evaluated
operand is null the result is null, with no error and no coercion to
zero; when both operands are non-null a failing operator application
(divide-by-zero, operand type mismatch) raises `EvaluationFailure`; and
concretely `evaluate("value('missing.path') + 1", {})` is null. -/
theorem c4_binop_null :
    (∀ (reg : DSLRegistry) (root : Value) (maxD d : Nat) (l r : Expr)
        (o : BinOp) (lv rv : Value),
        visitD reg root maxD (d + 1) l = .ok lv →
        visitD reg root maxD (d + 1) r = .ok rv →
        (lv.isNone || rv.isNone) = true →
        visitD reg root maxD d (.binop l o r) = .ok .vnone) ∧
    (∀ (reg : DSLRegistry) (root : Value) (maxD d : Nat) (l r : Expr)
        (o : BinOp) (lv rv : Value) (m : String),
        visitD reg root maxD (d + 1) l = .ok lv →
        visitD reg root maxD (d + 1) r = .ok rv →
        lv.isNone = false → rv.isNone = false →
        (∀ nm, o ≠ .bunk nm) →
        pyArith o lv rv = .error m →
        visitD reg root maxD d (.binop l o r)
          = .error (.expressionError ("Arithmetic error: " ++ m))) ∧
    eval_expr "value('missing.path') + 1" (.vdict []) = .ok .vnone := by
  refine ⟨?_, ?_, rfl⟩
  · intro reg root maxD d l r o lv rv hl hr hnull
    have hd1 : ¬ (maxD < d + 1) := by have := visit_ok_depth hl; omega
    simp [visitD, hd1, hl, hr, handleBinopV, hnull]
  · intro reg root maxD d l r o lv rv m hl hr hln hrn ho hp
    have hd1 : ¬ (maxD < d + 1) := by have := visit_ok_depth hl; omega
    cases o
    case bunk nm => exact absurd rfl (ho nm)
    all_goals simp [visitD, hd1, hl, hr, handleBinopV, hln, hrn, hp]

/-- Witness for C4 at concrete inputs: `None + 1` visits to null, and
`1 / 0` (both operands non-null) raises `EvaluationFailure`. -/
theorem c4_witness :
    (visitD defaultRegistry (.vdict []) 25 1 (.const .vnone) = .ok .vnone
      ∧ visitD defaultRegistry (.vdict []) 25 1 (.const (.vint 1)) = .ok (.vint 1)
      ∧ pyArith .bdiv (.vint 1) (.vint 0) = .error "division by zero")
    ∧ visitD defaultRegistry (.vdict []) 25 0
        (.binop (.const .vnone) .badd (.const (.vint 1))) = .ok .vnone
    ∧ visitD defaultRegistry (.vdict []) 25 0
        (.binop (.const (.vint 1)) .bdiv (.const (.vint 0)))
        = .error (.expressionError ("Arithmetic error: " ++ "division by zero")) :=
  ⟨⟨rfl, rfl, rfl⟩,
   c4_binop_null.1 _ _ _ _ _ _ .badd _ _ rfl rfl rfl,
   c4_binop_null.2.1 _ _ _ _ _ _ .bdiv _ _ _ rfl rfl rfl rfl
     (fun _ h => nomatch h) rfl⟩

/-- Claim C5: comparisons — both operands null makes `==` true and every
other comparison false; exactly one operand null makes `!=` true and
every other comparison false; otherwise the native ordering/equality
applies; and a chained comparison evaluates pairwise left to right,
returning false at the first failing pair with the later pairs
irrelevant (they are never evaluated). -/
theorem c5_comparisons :
    (∀ o : CmpOp, compareOne .vnone o .vnone = .ok (o == .ceq)) ∧
    (∀ (o : CmpOp) (v : Value), v.isNone = false →
        compareOne .vnone o v = .ok (o == .cne)
          ∧ compareOne v o .vnone = .ok (o == .cne)) ∧
    (∀ (o : CmpOp) (l r : Value) (b : Bool),
        l.isNone = false → r.isNone = false → (∀ nm, o ≠ .cunk nm) →
        pyCompare o l r = some b → compareOne l o r = .ok b) ∧
    (∀ (reg : DSLRegistry) (root : Value) (maxD d : Nat) (left : Value)
        (o : CmpOp) (c : Expr) (right : Value) (rest : List (CmpOp × Expr)),
        visitD reg root maxD d c = .ok right →
        compareOne left o right = .ok false →
        visitCmpL reg root maxD d left ((o, c) :: rest) = .ok (.vbool false)) ∧
    (∀ (reg : DSLRegistry) (root : Value) (maxD d : Nat) (left : Value)
        (o : CmpOp) (c : Expr) (right : Value) (rest : List (CmpOp × Expr)),
        visitD reg root maxD d c = .ok right →
        compareOne left o right = .ok true →
        visitCmpL reg root maxD d left ((o, c) :: rest)
          = visitCmpL reg root maxD d right rest) ∧
    (∀ (reg : DSLRegistry) (root : Value) (maxD d : Nat) (left : Value),
        visitCmpL reg root maxD d left [] = .ok (.vbool true)) ∧
    eval_expr "None == None" (.vdict []) = .ok (.vbool true) ∧
    eval_expr "None < 1" (.vdict []) = .ok (.vbool false) ∧
    eval_expr "1 != None" (.vdict []) = .ok (.vbool true) := by
  refine ⟨?_, ?_, ?_, ?_, ?_, fun _ _ _ _ _ => rfl, rfl, rfl, rfl⟩
  · intro o; simp [compareOne, Value.isNone]
  · intro o v hv
    constructor <;> (simp only [compareOne, hv]; simp [Value.isNone])
  · intro o l r b hl hr ho hp
    cases o
    case cunk nm => exact absurd rfl (ho nm)
    all_goals simp [compareOne, hl, hr, hp]
  · intro reg root maxD d left o c right rest hv hc
    simp [visitCmpL, hv, hc]
  · intro reg root maxD d left o c right rest hv hc
    simp [visitCmpL, hv, hc]

/-- Witness for C5 at a concrete input: `2 < 1 < 1/0` fails the first
pair, so the chain returns false regardless of the divide-by-zero pair
behind it. -/
theorem c5_witness :
    (visitD defaultRegistry (.vdict []) 25 1 (.const (.vint 1)) = .ok (.vint 1)
      ∧ compareOne (.vint 2) .clt (.vint 1) = .ok false)
    ∧ visitCmpL defaultRegistry (.vdict []) 25 1 (.vint 2)
        [(.clt, .const (.vint 1)),
         (.clt, .binop (.const (.vint 1)) .bdiv (.const (.vint 0)))]
        = .ok (.vbool false) :=
  ⟨⟨rfl, rfl⟩, c5_comparisons.2.2.2.1 _ _ _ _ _ _ _ _ _ rfl rfl⟩

/-- Claim C6: `evaluate` checks in a fixed order — an expression longer
than `max_length` fails `ResourceLimitExceeded` for every possible
parser outcome (the parser is simply never consulted), an expression
within the length limit whose parse fails gives `ParseError`, and every
AST-node visit checks the incremented depth counter first, failing
`ResourceLimitExceeded` immediately when it exceeds `max_depth`;
concretely, an expression of `max_depth + 1` nested `not` fails
`ResourceLimitExceeded`. -/
theorem c6_check_order :
    (∀ (parse : String → Except String Expr) (expr : String) (root : Value)
        (reg : DSLRegistry) (ml md : Nat),
        expr.length > ml →
        ∃ m, evalExprWith parse expr root reg ml md = .error (.resourceLimit m)) ∧
    (∀ (parse : String → Except String Expr) (expr : String) (root : Value)
        (reg : DSLRegistry) (ml md : Nat) (e : String),
        ¬ (expr.length > ml) → parse expr = .error e →
        evalExprWith parse expr root reg ml md
          = .error (.parseError ("Expression syntax error: " ++ e))) ∧
    (∀ (reg : DSLRegistry) (root : Value) (maxD depth : Nat) (e : Expr),
        maxD < depth + 1 →
        visitD reg root maxD depth e = .error (depthErr maxD)) ∧
    eval_expr (notChain 26) (.vdict []) = .error (depthErr 25) := by
  refine ⟨?_, ?_, ?_, rfl⟩
  · intro parse expr root reg ml md hlen
    exact ⟨_, by simp only [evalExprWith]; rw [if_pos hlen]⟩
  · intro parse expr root reg ml md e hlen hp
    simp [evalExprWith, hlen, hp]
  · intro reg root maxD depth e hlt
    cases e with
    | boolop o vs => cases o <;> simp [visitD, hlt]
    | expression body => simp [visitD, hlt]
    | const vv => simp [visitD, hlt]
    | name nm => simp [visitD, hlt]
    | binop l o r => simp [visitD, hlt]
    | unaryop o operand => simp [visitD, hlt]
    | compare l rest => simp [visitD, hlt]
    | call f args => simp [visitD, hlt]
    | other kind => simp [visitD, hlt]

set_option maxRecDepth 8192 in
/-- Witness for C6 at concrete inputs: a 1025-character expression trips
the length check under the default limits, the unparsable `"1 +"` gives
`ParseError`, and a visit at the depth limit fails immediately. -/
theorem c6_witness :
    (longInput.length > 1024
      ∧ ¬ ("1 +".length > 1024) ∧ parseDSL "1 +" = .error "unexpected token or end of input"
      ∧ 25 < 25 + 1)
    ∧ (∃ m, evalExprWith parseDSL longInput (.vdict []) defaultRegistry 1024 25
          = .error (.resourceLimit m))
    ∧ evalExprWith parseDSL "1 +" (.vdict []) defaultRegistry 1024 25
        = .error (.parseError ("Expression syntax error: " ++ "unexpected token or end of input"))
    ∧ visitD defaultRegistry (.vdict []) 25 25 (.const .vnone) = .error (depthErr 25) :=
  ⟨⟨by decide, by decide, rfl, by omega⟩,
   c6_check_order.1 parseDSL longInput _ _ _ 25 (by decide),
   c6_check_order.2.1 parseDSL "1 +" _ _ _ 25 _ (by decide) rfl,
   c6_check_order.2.2.1 _ _ _ _ _ (by omega)⟩

/-- Claim C8: a condition-expression error during a live run is not
caught per rule — it propagates and aborts the whole `evaluate_rules`
run, which returns no action list; the single deliberate soft recovery
is in `expected_impact` resolution, where a string leaf whose evaluation
fails for any reason is kept verbatim as the literal string, while
numeric/bool/null leaves pass through and dict/list nodes recurse. -/
theorem c8_error_propagation :
    (∀ (ir : Value) (c : Value) (cs : List Value) (s : String) (err : Err),
        condOk c = some s → eval_expr s ir = .error err →
        checkConds ir (c :: cs) = .error (.exprErr err)) ∧
    (∀ (ir : Value) (rd : List (String × Value)) (conds : List Value)
        (rs : List Value) (acc : List Action) (err : RunErr),
        dictGetD rd "if_all" (.vlist []) = .vlist conds →
        checkConds ir conds = .error err →
        evalRulesGo ir (.vdict rd :: rs) acc = .error err) ∧
    (∀ (root : Value) (fuel : Nat) (s : String) (err : Err),
        eval_expr s root = .error err →
        evalVOEF root (fuel + 1) (.vstr s) = .vstr s) ∧
    (∀ (root : Value) (fuel : Nat) (s : String) (v : Value),
        eval_expr s root = .ok v →
        evalVOEF root (fuel + 1) (.vstr s) = v) ∧
    (∀ (root : Value) (fuel : Nat) (n : Int),
        evalVOEF root (fuel + 1) (.vint n) = .vint n) ∧
    (∀ (root : Value) (fuel : Nat) (b : Bool),
        evalVOEF root (fuel + 1) (.vbool b) = .vbool b) ∧
    (∀ (root : Value) (fuel : Nat) (q : Rat),
        evalVOEF root (fuel + 1) (.vfloat q) = .vfloat q) ∧
    (∀ (root : Value) (fuel : Nat), evalVOEF root (fuel + 1) .vnone = .vnone) ∧
    (∀ (root : Value) (fuel : Nat) (xs : List (String × Value)),
        evalVOEF root (fuel + 1) (.vdict xs) = .vdict (evalVOEDictF root fuel xs)) ∧
    (∀ (root : Value) (fuel : Nat) (xs : List Value),
        evalVOEF root (fuel + 1) (.vlist xs) = .vlist (evalVOEListF root fuel xs)) := by
  refine ⟨?_, ?_, ?_, ?_, fun _ _ _ => rfl, fun _ _ _ => rfl, fun _ _ _ => rfl,
          fun _ _ => rfl, fun _ _ _ => rfl, fun _ _ _ => rfl⟩
  · intro ir c cs s err hc he
    simp [checkConds, hc, he]
  · intro ir rd conds rs acc err hif hcc
    simp [evalRulesGo, hif, hcc]
  · intro root fuel s err he
    simp [evalVOEF, he]
  · intro root fuel s v he
    simp [evalVOEF, he]

/-- Witness for C8 at concrete inputs: a condition whose expression does
not parse aborts the condition check with the propagated error, and the
same failing string inside an impact tree is kept verbatim. -/
theorem c8_witness :
    (condOk (.vdict [("expr", .vstr "1 +")]) = some "1 +"
      ∧ eval_expr "1 +" (.vdict [])
          = .error (.parseError ("Expression syntax error: " ++ "unexpected token or end of input")))
    ∧ checkConds (.vdict []) [.vdict [("expr", .vstr "1 +")]]
        = .error (.exprErr (.parseError ("Expression syntax error: " ++ "unexpected token or end of input")))
    ∧ evalVOEF (.vdict []) (0 + 1) (.vstr "1 +") = .vstr "1 +" :=
  ⟨⟨rfl, rfl⟩, c8_error_propagation.1 _ _ _ _ _ rfl rfl,
   c8_error_propagation.2.2.1 _ 0 _ _ rfl⟩

/-- `_validate_ruleset` accepts a rule's condition list exactly when
every condition is well-formed. -/
theorem validateConds_ok_iff (rid : Value) (conds : List Value) :
    validateConds rid conds = .ok () ↔ conds.all condWFb = true := by
  induction conds with
  | nil => simp [validateConds]
  | cons c cs ih =>
    simp only [validateConds, List.all_cons, Bool.and_eq_true]
    cases hc : condOk c with
    | none => simp [condWFb, hc]
    | some s =>
      cases hp : parseDSL s with
      | error m => simp [condWFb, hc, hp, Except.isOk, Except.toBool]
      | ok t => simp [condWFb, hc, hp, ih, Except.isOk, Except.toBool]

/-- `_validate_ruleset` accepts a rule list exactly when every rule is
well-formed (for any index base). -/
theorem validateRulesGo_ok_iff (rs : List Value) : ∀ i : Nat,
    validateRulesGo i rs = .ok () ↔ rs.all ruleWFb = true := by
  induction rs with
  | nil => intro i; simp [validateRulesGo]
  | cons r rest ih =>
    intro i
    simp only [List.all_cons, Bool.and_eq_true]
    cases r with
    | vdict xs =>
      simp only [validateRulesGo, ruleWFb]
      cases hid : truthy (dictGet xs "id") with
      | false => simp [hid]
      | true =>
        simp only [hid, Bool.not_true, Bool.true_and, if_false]
        cases hif : dictGetD xs "if_all" (.vlist []) with
        | vlist conds =>
          cases hv : validateConds (dictGet xs "id") conds with
          | error e =>
            have hcf : conds.all condWFb = false := by
              cases hall : conds.all condWFb with
              | false => rfl
              | true =>
                have := (validateConds_ok_iff (dictGet xs "id") conds).mpr hall
                rw [hv] at this
                exact absurd this (by simp)
            simp [hv, hcf]
          | ok u =>
            cases u
            have hct : conds.all condWFb = true :=
              (validateConds_ok_iff (dictGet xs "id") conds).mp hv
            simp [hv, hct, ih (i + 1)]
        | vnone => simp
        | vbool b => simp
        | vint n => simp
        | vfloat q => simp
        | vstr s => simp
        | vdict ys => simp
    | vnone => simp [validateRulesGo, ruleWFb]
    | vbool b => simp [validateRulesGo, ruleWFb]
    | vint n => simp [validateRulesGo, ruleWFb]
    | vfloat q => simp [validateRulesGo, ruleWFb]
    | vstr s => simp [validateRulesGo, ruleWFb]
    | vlist ys => simp [validateRulesGo, ruleWFb]

/-- Claim C7 (counterexample): the claim says every load-time violation
produces an error naming the offending rule.  For the rule set whose
rule `R1` has the unparsable condition `expr: "1 +"`, the load does fail
entirely, but with the propagated parser error, whose message does not
mention `R1` at all — the `ValueError`s of `_validate_ruleset` name the
rule, the bare `ast.parse` call does not. -/
theorem c7_counterexample :
    loadRulesOnce badRuleset = .error (.parseFail "unexpected token or end of input")
      ∧ validateRuleset badRuleset = .error (.parseFail "unexpected token or end of input")
      ∧ strMentions "unexpected token or end of input" "R1" = false :=
  ⟨rfl, rfl, rfl⟩

/-- Claim C7 (amended): for every rule-set source containing a violation
(source not a list, a rule not a mapping, a missing or empty id, a
condition without a string expr, or a condition expression that fails to
parse) the load fails entirely — no rule set value is produced and
nothing is cached; structural violations are reported by `ValueError`s
naming the offending rule, while a condition parse failure propagates
the parser's own error, which does not name the rule. -/
theorem c7_atomic_load :
    (∀ rs : List Value, rs.all ruleWFb = false →
        ∃ e, validateRuleset (.vlist rs) = .error e) ∧
    (∀ src : Value, (∀ rs, src ≠ .vlist rs) →
        validateRuleset src = .error (.valueError "Rules file must parse to a list")) ∧
    (∀ (doc : Value) (e : LoadErr),
        validateRuleset (if truthy doc then doc else .vlist []) = .error e →
        loadRulesOnce doc = .error e) ∧
    (∀ (readDoc : String → Value) (cache : List (String × Value))
        (path : String) (e : LoadErr),
        lookupNamed cache path = none →
        loadRulesOnce (readDoc path) = .error e →
        loadRulesCached readDoc cache path = .error e) ∧
    validateRuleset (.vlist [.vint 7]) = .error (.valueError "Rule #0 is not a mapping") ∧
    strMentions "Rule #0 is not a mapping" "Rule #0" = true ∧
    validateRuleset badRuleset = .error (.parseFail "unexpected token or end of input") ∧
    strMentions "unexpected token or end of input" "R1" = false := by
  refine ⟨?_, ?_, ?_, ?_, rfl, rfl, rfl, rfl⟩
  · intro rs hall
    cases hv : validateRuleset (.vlist rs) with
    | error e => exact ⟨e, rfl⟩
    | ok u =>
      cases u
      have := (validateRulesGo_ok_iff rs 0).mp (by simpa [validateRuleset] using hv)
      rw [hall] at this
      exact absurd this (by simp)
  · intro src hne
    cases src with
    | vlist rs => exact absurd rfl (hne rs)
    | vnone => rfl
    | vbool b => rfl
    | vint n => rfl
    | vfloat q => rfl
    | vstr s => rfl
    | vdict xs => rfl
  · intro doc e hv
    simp [loadRulesOnce, hv]
  · intro readDoc cache path e hmiss hload
    simp [loadRulesCached, hmiss, hload]

/-- Witness for the amended C7 at a concrete input: the `"1 +"` rule set
fails the well-formedness check, so validation yields an error, and a
load through an empty cache propagates the failure without producing or
caching any rule set. -/
theorem c7_witness :
    ([Value.vdict [("id", .vstr "R1"),
                   ("if_all", .vlist [.vdict [("expr", .vstr "1 +")]])]].all ruleWFb = false
      ∧ lookupNamed ([] : List (String × Value)) "rules.yaml" = none
      ∧ loadRulesOnce badRuleset = .error (.parseFail "unexpected token or end of input"))
    ∧ (∃ e, validateRuleset (.vlist [.vdict [("id", .vstr "R1"),
          ("if_all", .vlist [.vdict [("expr", .vstr "1 +")]])]]) = .error e)
    ∧ loadRulesCached (fun _ => badRuleset) [] "rules.yaml"
        = .error (.parseFail "unexpected token or end of input") :=
  ⟨⟨rfl, rfl, rfl⟩,
   c7_atomic_load.1 _ rfl,
   c7_atomic_load.2.2.2.1 _ _ _ _ rfl rfl⟩

/-- A successfully synthesized action carries the rule's (string) id as
`source_rule_id` and the interpolated `"{rule.id}_ACT_{n}"` as its id. -/
theorem mkAction_ids {ir : Value} {rd : List (String × Value)} {n : Nat} {a : Action}
    (h : mkAction ir rd n = .ok a) :
    ∃ rid, dictGet rd "id" = .vstr rid ∧ a.source_rule_id = some rid
      ∧ a.id = rid ++ "_ACT_" ++ toString n := by
  simp only [mkAction] at h
  split at h <;> try (exact Except.noConfusion h)
  split at h <;> try (exact Except.noConfusion h)
  split at h <;> try (exact Except.noConfusion h)
  split at h <;> try (exact Except.noConfusion h)
  split at h <;> try (exact Except.noConfusion h)
  split at h <;> try (exact Except.noConfusion h)
  rename_i rids hty htgt hps hpr hrid hc1 hc2
  have ha := Except.ok.inj h
  refine ⟨rids, hrid, ?_, ?_⟩
  · rw [← ha]
  · rw [← ha, hrid]
    simp [fstr]

/-- The loop invariant of `evaluate_rules`: a successful pass over `rs`
starting from the accumulator `acc` extends it by exactly the actions
that `Emits` relates to `rs` at the running index `acc.length + 1`. -/
theorem evalRulesGo_emits (ir : Value) :
    ∀ (rs : List Value) (acc out : List Action),
      evalRulesGo ir rs acc = .ok out →
      ∃ extra, out = acc ++ extra ∧ Emits ir (acc.length + 1) rs extra := by
  intro rs
  induction rs with
  | nil =>
    intro acc out h
    simp only [evalRulesGo] at h
    exact ⟨[], by simp [← Except.ok.inj h], Emits.nil _⟩
  | cons r rest ih =>
    intro acc out h
    simp only [evalRulesGo] at h
    split at h <;> try (exact Except.noConfusion h)
    rename_i rd
    split at h <;> try (exact Except.noConfusion h)
    rename_i conds hif
    split at h <;> try (exact Except.noConfusion h)
    rename_i fired hcc
    cases fired with
    | false =>
      rw [if_neg (by simp)] at h
      obtain ⟨extra, hout, hem⟩ := ih acc out h
      exact ⟨extra, hout, Emits.skip _ rd conds rest extra hif hcc hem⟩
    | true =>
      rw [if_pos rfl] at h
      split at h <;> try (exact Except.noConfusion h)
      rename_i a hmk
      obtain ⟨extra, hout, hem⟩ := ih (acc ++ [a]) out h
      obtain ⟨rid, hrid, hsrc, hid⟩ := mkAction_ids hmk
      refine ⟨a :: extra, ?_, ?_⟩
      · simp [hout]
      · have hlen : (acc ++ [a]).length = acc.length + 1 := by simp
        rw [hlen] at hem
        exact Emits.fire _ rd conds rest a extra rid hif hcc hrid hsrc hid hem

/-- Claim C1: for every loaded rule set and fact record, a successful
`evaluate_rules` run emits exactly one action per rule whose `if_all`
conditions are all truthy (null counted as falsy), in rule-set
declaration order; each emitted action's `source_rule_id` is the rule's
id and its id is `"{rule.id}_ACT_{n}"` with `n` the 1-based running
count of actions emitted so far across the whole run; a rule with a
non-truthy condition contributes no action. -/
theorem c1_engine_emission (ir : Value) (rules : List Value) (acts : List Action)
    (h : evaluate_rules ir (.vlist rules) = .ok acts) :
    Emits ir 1 rules acts := by
  have h' : evalRulesGo ir rules [] = .ok acts := by simpa [evaluate_rules] using h
  obtain ⟨extra, hout, hem⟩ := evalRulesGo_emits ir rules [] acts h'
  simpa [hout] using hem

/-- Witness for C1 at the spec §8 example: rule `R1` against `{x: 11}`
emits exactly the one action `R1_ACT_1` attributed to `R1` (and the same
rule against `{x: 5}` emits nothing). -/
theorem c1_witness :
    (evaluate_rules factX11 (.vlist [r1Rule]) = .ok [r1Action]
      ∧ evaluate_rules factX5 (.vlist [r1Rule]) = .ok []
      ∧ r1Action.id = "R1_ACT_1"
      ∧ r1Action.source_rule_id = some "R1")
    ∧ Emits factX11 1 [r1Rule] [r1Action] :=
  ⟨⟨rfl, rfl, rfl, rfl⟩, c1_engine_emission factX11 [r1Rule] [r1Action] rfl⟩

end NavInsights
